import Mathlib

/-!
Verification of the winding-normalization library (rust-geo-normalized).

The repository exposes a `Normalized` trait implemented for `Polygon`,
`MultiPolygon` and `GeometryCollection`.  The polygon normalizer
(`normalized_polygon` in `src/lib.rs`) rebuilds the polygon from
`exterior().points_cw()` and `interiors()[i].points_ccw()`.  The winding
test and ring reversal live in the external `geo` crate and are modelled
here from the specification (shoelace sign test; reversal preserving
closure); everything under `src/lib.rs` is embedded directly.

Coordinates are modelled over `Int`: the claims are about winding order,
closure and value equality, none of which depends on floating-point
rounding, and exact integers make every statement decidable on concrete
inputs.
-/

namespace GeoNorm

/-- A planar coordinate, an (x, y) pair.  Mirrors `geo::Coordinate`. -/
structure Coordinate where
  x : Int
  y : Int
deriving DecidableEq, Repr

/-- A line string: an ordered sequence of coordinates.
Mirrors `geo::LineString` (a wrapper around a vector of coordinates). -/
abbrev LineString := List Coordinate

/-- Cross term of the shoelace sum for one consecutive vertex pair. -/
def cross (a b : Coordinate) : Int :=
  a.x * b.y - b.x * a.y

/-- Modelled from the spec: the shoelace signed-area test of section 4.1,
which is the orientation algorithm of the `geo` crate used by the source
(`use geo::algorithm::winding_order::Winding`, code not under `src/`).
Twice the signed area: the sum over consecutive vertex pairs of
(x_i * y_succ - x_succ * y_i).  Negative means clockwise, positive means
counter-clockwise, zero means degenerate. -/
def twiceSignedArea : LineString → Int
  | [] => 0
  | [_] => 0
  | a :: b :: rest => cross a b + twiceSignedArea (b :: rest)

/-- Winding order of a ring.  Mirrors `geo::winding_order::WindingOrder`. -/
inductive WindingOrder : Type where
  | clockwise : WindingOrder
  | counterClockwise : WindingOrder
deriving DecidableEq, Repr

/-- Modelled from the spec: the orientation test of section 4.1 for the
`geo` crate method `winding_order` (code not under `src/`).  A negative
shoelace sum is clockwise, a positive one counter-clockwise, and a
degenerate (zero-area) ring has no determined winding order. -/
def winding_order (ls : LineString) : Option WindingOrder :=
  if twiceSignedArea ls < 0 then some WindingOrder.clockwise
  else if 0 < twiceSignedArea ls then some WindingOrder.counterClockwise
  else none

/-- Modelled from the spec: the `geo` crate method `points_cw` used by
`normalized_polygon` (code not under `src/`).  Yields the ring vertices in
clockwise order: reverses exactly when the ring is counter-clockwise,
otherwise (clockwise or degenerate) yields them unchanged. -/
def points_cw (ls : LineString) : LineString :=
  match winding_order ls with
  | some WindingOrder.counterClockwise => ls.reverse
  | _ => ls

/-- Modelled from the spec: the `geo` crate method `points_ccw` used by
`normalized_polygon` (code not under `src/`).  Yields the ring vertices in
counter-clockwise order: reverses exactly when the ring is clockwise,
otherwise (counter-clockwise or degenerate) yields them unchanged. -/
def points_ccw (ls : LineString) : LineString :=
  match winding_order ls with
  | some WindingOrder.clockwise => ls.reverse
  | _ => ls

/-- A ring is closed when its first and last coordinates agree (the
data-model invariant of section 3; `geo::LineString::is_closed`). -/
def IsClosedRing (ls : LineString) : Prop :=
  ls.head? = ls.getLast?

instance (ls : LineString) : Decidable (IsClosedRing ls) := by
  unfold IsClosedRing; infer_instance

/-- Modelled from the spec: `geo::LineString::close` (code not under
`src/`), applied by the `Polygon` constructor — appends the first
coordinate when the ring is not yet closed. -/
def close (ls : LineString) : LineString :=
  match ls with
  | [] => []
  | a :: rest =>
    if (a :: rest).getLast? = some a then a :: rest else (a :: rest) ++ [a]

/-- A polygon: one exterior ring and a list of interior rings.
Mirrors `geo::Polygon`. -/
structure Polygon where
  exterior : LineString
  interiors : List LineString
deriving DecidableEq, Repr

/-- Modelled from the spec: `geo::Polygon::new` (code not under `src/`),
which closes the exterior and every interior ring on construction; hence
every constructible polygon satisfies the closure invariant of section 3. -/
def Polygon.new (ext : LineString) (ints : List LineString) : Polygon :=
  ⟨close ext, ints.map close⟩

/-- The data-model invariant of section 3: every ring of the polygon is
closed.  Holds for every polygon the `geo` constructors can produce. -/
def Polygon.IsClosed (p : Polygon) : Prop :=
  IsClosedRing p.exterior ∧ ∀ r ∈ p.interiors, IsClosedRing r

instance (p : Polygon) : Decidable p.IsClosed := by
  unfold Polygon.IsClosed; infer_instance

/-- Embeds `normalized_polygon` of `src/lib.rs` (lines 89-109): rebuilds
the polygon from the clockwise traversal of the exterior ring and the
counter-clockwise traversal of each interior ring. -/
def normalized_polygon (poly : Polygon) : Polygon :=
  Polygon.new (points_cw poly.exterior) (poly.interiors.map points_ccw)

/-- Embeds `impl Normalized for Polygon` of `src/lib.rs` (lines 80-84). -/
def Polygon.normalized (p : Polygon) : Polygon :=
  normalized_polygon p

/-- A multi-polygon: an ordered list of polygons.  Mirrors
`geo::MultiPolygon`. -/
abbrev MultiPolygon := List Polygon

/-- Embeds `impl Normalized for MultiPolygon` of `src/lib.rs`
(lines 69-78): maps polygon normalization over the list. -/
def MultiPolygon.normalized (mp : MultiPolygon) : MultiPolygon :=
  mp.map Polygon.normalized

/-- A line segment.  Mirrors `geo::Line`. -/
structure Line where
  start : Coordinate
  finish : Coordinate
deriving DecidableEq, Repr

/-- An axis-aligned rectangle.  Mirrors `geo::Rect`. -/
structure Rect where
  min : Coordinate
  max : Coordinate
deriving DecidableEq, Repr

/-- A triangle.  Mirrors `geo::Triangle`. -/
structure Triangle where
  v0 : Coordinate
  v1 : Coordinate
  v2 : Coordinate
deriving DecidableEq, Repr

/-- The tagged geometry variant set.  Mirrors the `geo::Geometry` enum. -/
inductive Geometry : Type where
  | point : Coordinate → Geometry
  | line : Line → Geometry
  | lineString : LineString → Geometry
  | polygon : Polygon → Geometry
  | multiPoint : List Coordinate → Geometry
  | multiLineString : List LineString → Geometry
  | multiPolygon : MultiPolygon → Geometry
  | geometryCollection : List Geometry → Geometry
  | rect : Rect → Geometry
  | triangle : Triangle → Geometry

/-- A geometry collection: an ordered list of tagged variants.  Mirrors
`geo::GeometryCollection`. -/
abbrev GeometryCollection := List Geometry

/-- Modelled from the spec: `geo::Geometry::into_polygon` (code not under
`src/`) — extracts the payload when the variant is a polygon. -/
def Geometry.into_polygon : Geometry → Option Polygon
  | Geometry.polygon p => some p
  | _ => none

/-- Modelled from the spec: `geo::Geometry::into_multi_polygon` (code not
under `src/`) — extracts the payload when the variant is a multi-polygon. -/
def Geometry.into_multi_polygon : Geometry → Option MultiPolygon
  | Geometry.multiPolygon mp => some mp
  | _ => none

/-- Embeds the per-element match of `impl Normalized for
GeometryCollection` (`src/lib.rs` lines 53-61).  The `unwrap` after
`into_polygon` / `into_multi_polygon` is modelled as `Option`: a `none`
result is the panic. -/
def Geometry.normalizedStep : Geometry → Option Geometry
  | Geometry.polygon p =>
    (Geometry.into_polygon (Geometry.polygon p)).map
      (fun q => Geometry.polygon q.normalized)
  | Geometry.multiPolygon mp =>
    (Geometry.into_multi_polygon (Geometry.multiPolygon mp)).map
      (fun m => Geometry.multiPolygon m.normalized)
  | g => some g

/-- Embeds `impl Normalized for GeometryCollection` of `src/lib.rs`
(lines 48-65): the per-element transform mapped over the collection, with
a panic anywhere yielding `none` for the whole collection. -/
def GeometryCollection.normalized : GeometryCollection → Option GeometryCollection
  | [] => some []
  | g :: rest =>
    match Geometry.normalizedStep g, GeometryCollection.normalized rest with
    | some g2, some rest2 => some (g2 :: rest2)
    | _, _ => none

/-- The collection dispatch as the spec words it (sections 4.5 and 8): a
polygon element is replaced by its polygon normalization, a multi-polygon
element by its multi-polygon normalization, and every other variant —
a nested collection included — passes through unchanged.  Stated from the
spec, to be compared with `GeometryCollection.normalized`. -/
def normalizeElemSpec : Geometry → Geometry
  | Geometry.polygon p => Geometry.polygon (normalized_polygon p)
  | Geometry.multiPolygon mp => Geometry.multiPolygon (MultiPolygon.normalized mp)
  | g => g

/-! ### Lemmas about the shoelace sum -/

lemma cross_swap (a b : Coordinate) : cross b a = - cross a b := by
  unfold cross; ring

lemma twiceSignedArea_cons_cons (a b : Coordinate) (r : LineString) :
    twiceSignedArea (a :: b :: r) = cross a b + twiceSignedArea (b :: r) := rfl

lemma twiceSignedArea_append_last (l : LineString) (x : Coordinate) :
    twiceSignedArea (l ++ [x]) =
      twiceSignedArea l + (l.getLast?.elim 0 (fun y => cross y x)) := by
  induction l with
  | nil => simp [twiceSignedArea]
  | cons a l ih =>
    cases l with
    | nil => simp [twiceSignedArea]
    | cons b r =>
      calc twiceSignedArea ((a :: b :: r) ++ [x])
          = cross a b + twiceSignedArea ((b :: r) ++ [x]) := rfl
        _ = cross a b + (twiceSignedArea (b :: r) +
              ((b :: r).getLast?.elim 0 (fun y => cross y x))) := by rw [ih]
        _ = (cross a b + twiceSignedArea (b :: r)) +
              ((b :: r).getLast?.elim 0 (fun y => cross y x)) := by ring
        _ = twiceSignedArea (a :: b :: r) +
              ((a :: b :: r).getLast?.elim 0 (fun y => cross y x)) := by
            rw [List.getLast?_cons_cons, twiceSignedArea_cons_cons]

lemma twiceSignedArea_reverse (l : LineString) :
    twiceSignedArea l.reverse = - twiceSignedArea l := by
  induction l with
  | nil => simp [twiceSignedArea]
  | cons a l ih =>
    rw [List.reverse_cons, twiceSignedArea_append_last, ih, List.getLast?_reverse]
    cases l with
    | nil => simp [twiceSignedArea]
    | cons b r =>
      simp only [List.head?_cons, Option.elim_some, twiceSignedArea_cons_cons]
      unfold cross
      ring

/-! ### Lemmas about the winding test -/

lemma winding_order_eq_ccw_iff (ls : LineString) :
    winding_order ls = some WindingOrder.counterClockwise ↔
      0 < twiceSignedArea ls := by
  unfold winding_order
  split_ifs with h1 h2
  · exact iff_of_false (by intro hc; cases hc) (by omega)
  · exact iff_of_true rfl h2
  · exact iff_of_false (by intro hc; cases hc) h2

lemma winding_order_eq_cw_iff (ls : LineString) :
    winding_order ls = some WindingOrder.clockwise ↔
      twiceSignedArea ls < 0 := by
  unfold winding_order
  split_ifs with h1 h2
  · exact iff_of_true rfl h1
  · exact iff_of_false (by intro hc; cases hc) h1
  · exact iff_of_false (by intro hc; cases hc) h1

lemma points_cw_eq_self (ls : LineString) (h : twiceSignedArea ls ≤ 0) :
    points_cw ls = ls := by
  unfold points_cw
  cases hw : winding_order ls with
  | none => rfl
  | some w =>
    cases w with
    | clockwise => rfl
    | counterClockwise =>
      exact absurd ((winding_order_eq_ccw_iff ls).mp hw) (not_lt.mpr h)

lemma points_cw_eq_reverse (ls : LineString) (h : 0 < twiceSignedArea ls) :
    points_cw ls = ls.reverse := by
  unfold points_cw
  rw [(winding_order_eq_ccw_iff ls).mpr h]

lemma points_ccw_eq_self (ls : LineString) (h : 0 ≤ twiceSignedArea ls) :
    points_ccw ls = ls := by
  unfold points_ccw
  cases hw : winding_order ls with
  | none => rfl
  | some w =>
    cases w with
    | clockwise =>
      exact absurd ((winding_order_eq_cw_iff ls).mp hw) (not_lt.mpr h)
    | counterClockwise => rfl

lemma points_ccw_eq_reverse (ls : LineString) (h : twiceSignedArea ls < 0) :
    points_ccw ls = ls.reverse := by
  unfold points_ccw
  rw [(winding_order_eq_cw_iff ls).mpr h]

lemma points_cw_cases (ls : LineString) :
    points_cw ls = ls ∨ points_cw ls = ls.reverse := by
  rcases le_or_lt (twiceSignedArea ls) 0 with h | h
  · exact Or.inl (points_cw_eq_self ls h)
  · exact Or.inr (points_cw_eq_reverse ls h)

lemma points_ccw_cases (ls : LineString) :
    points_ccw ls = ls ∨ points_ccw ls = ls.reverse := by
  rcases le_or_lt 0 (twiceSignedArea ls) with h | h
  · exact Or.inl (points_ccw_eq_self ls h)
  · exact Or.inr (points_ccw_eq_reverse ls h)

lemma twiceSignedArea_points_cw_nonpos (ls : LineString) :
    twiceSignedArea (points_cw ls) ≤ 0 := by
  rcases le_or_lt (twiceSignedArea ls) 0 with h | h
  · rw [points_cw_eq_self ls h]; exact h
  · rw [points_cw_eq_reverse ls h, twiceSignedArea_reverse]; omega

lemma twiceSignedArea_points_cw_neg (ls : LineString)
    (h : twiceSignedArea ls ≠ 0) : twiceSignedArea (points_cw ls) < 0 := by
  rcases lt_or_gt_of_ne h with h1 | h1
  · rw [points_cw_eq_self ls (le_of_lt h1)]; exact h1
  · rw [points_cw_eq_reverse ls h1, twiceSignedArea_reverse]; omega

lemma twiceSignedArea_points_ccw_nonneg (ls : LineString) :
    0 ≤ twiceSignedArea (points_ccw ls) := by
  rcases le_or_lt 0 (twiceSignedArea ls) with h | h
  · rw [points_ccw_eq_self ls h]; exact h
  · rw [points_ccw_eq_reverse ls h, twiceSignedArea_reverse]; omega

lemma twiceSignedArea_points_ccw_pos (ls : LineString)
    (h : twiceSignedArea ls ≠ 0) : 0 < twiceSignedArea (points_ccw ls) := by
  rcases lt_or_gt_of_ne h with h1 | h1
  · rw [points_ccw_eq_reverse ls h1, twiceSignedArea_reverse]; omega
  · rw [points_ccw_eq_self ls (le_of_lt h1)]; exact h1

lemma points_cw_idem (ls : LineString) :
    points_cw (points_cw ls) = points_cw ls := by
  rcases le_or_lt (twiceSignedArea ls) 0 with h | h
  · rw [points_cw_eq_self ls h, points_cw_eq_self ls h]
  · rw [points_cw_eq_reverse ls h]
    apply points_cw_eq_self
    rw [twiceSignedArea_reverse]; omega

lemma points_ccw_idem (ls : LineString) :
    points_ccw (points_ccw ls) = points_ccw ls := by
  rcases le_or_lt 0 (twiceSignedArea ls) with h | h
  · rw [points_ccw_eq_self ls h, points_ccw_eq_self ls h]
  · rw [points_ccw_eq_reverse ls h]
    apply points_ccw_eq_self
    rw [twiceSignedArea_reverse]; omega

/-! ### Lemmas about closure -/

lemma isClosedRing_reverse (ls : LineString) (h : IsClosedRing ls) :
    IsClosedRing ls.reverse := by
  unfold IsClosedRing at h ⊢
  rw [List.head?_reverse, List.getLast?_reverse]
  exact h.symm

lemma close_eq_self (ls : LineString) (h : IsClosedRing ls) :
    close ls = ls := by
  cases ls with
  | nil => rfl
  | cons a rest =>
    unfold IsClosedRing at h
    have hl : (a :: rest).getLast? = some a := by rw [← h]; rfl
    show (if (a :: rest).getLast? = some a then a :: rest
          else (a :: rest) ++ [a]) = a :: rest
    rw [if_pos hl]

lemma isClosedRing_points_cw (ls : LineString) (h : IsClosedRing ls) :
    IsClosedRing (points_cw ls) := by
  rcases points_cw_cases ls with he | he <;> rw [he]
  · exact h
  · exact isClosedRing_reverse ls h

lemma isClosedRing_points_ccw (ls : LineString) (h : IsClosedRing ls) :
    IsClosedRing (points_ccw ls) := by
  rcases points_ccw_cases ls with he | he <;> rw [he]
  · exact h
  · exact isClosedRing_reverse ls h

/-! ### Lemmas about the polygon normalizer -/

lemma normalized_polygon_def (p : Polygon) :
    normalized_polygon p =
      ⟨close (points_cw p.exterior),
       p.interiors.map (fun r => close (points_ccw r))⟩ := by
  unfold normalized_polygon Polygon.new
  rw [List.map_map]
  rfl

lemma normalized_polygon_of_closed (p : Polygon) (h : p.IsClosed) :
    normalized_polygon p =
      ⟨points_cw p.exterior, p.interiors.map points_ccw⟩ := by
  have he : close (points_cw p.exterior) = points_cw p.exterior :=
    close_eq_self _ (isClosedRing_points_cw _ h.1)
  have hi : p.interiors.map (fun r => close (points_ccw r)) =
      p.interiors.map points_ccw := by
    apply List.map_congr_left
    intro r hr
    exact close_eq_self _ (isClosedRing_points_ccw _ (h.2 r hr))
  rw [normalized_polygon_def, he, hi]

lemma normalized_polygon_isClosed (p : Polygon) (h : p.IsClosed) :
    (normalized_polygon p).IsClosed := by
  rw [normalized_polygon_of_closed p h]
  constructor
  · exact isClosedRing_points_cw _ h.1
  · intro r hr
    rcases List.mem_map.mp hr with ⟨s, hs, rfl⟩
    exact isClosedRing_points_ccw _ (h.2 s hs)

lemma points_cw_perm (ls : LineString) : (points_cw ls).Perm ls := by
  rcases points_cw_cases ls with he | he <;> rw [he]
  exact List.reverse_perm ls

lemma points_ccw_perm (ls : LineString) : (points_ccw ls).Perm ls := by
  rcases points_ccw_cases ls with he | he <;> rw [he]
  exact List.reverse_perm ls

/-! ### Lemmas about the collection dispatcher -/

lemma normalizedStep_eq (g : Geometry) :
    Geometry.normalizedStep g = some (normalizeElemSpec g) := by
  cases g <;> rfl

lemma gc_normalized_eq (gc : GeometryCollection) :
    GeometryCollection.normalized gc = some (gc.map normalizeElemSpec) := by
  induction gc with
  | nil => rfl
  | cons g rest ih =>
    simp [GeometryCollection.normalized, normalizedStep_eq, ih]

/-! ### The claims -/

/-- Claim C1 is refuted as stated: a polygon whose exterior ring is
degenerate (zero shoelace sum, here three collinear vertices) is left
unchanged by normalization, and its exterior ring is then not clockwise
under the sign test (negative sum = clockwise), since its sum is zero. -/
theorem claim1_counterexample :
    ¬ twiceSignedArea
        (normalized_polygon ⟨[⟨0, 0⟩, ⟨1, 1⟩, ⟨2, 2⟩, ⟨0, 0⟩], []⟩).exterior
        < 0 := by decide

/-- Claim C1 (amended): for every polygon satisfying the closure invariant
of the data model, normalization makes the exterior ring clockwise
(negative shoelace sum) whenever the exterior has nonzero signed area, and
makes every interior ring counter-clockwise (positive sum) whenever that
ring has nonzero signed area; zero-area rings have no determined
orientation and are excluded. -/
theorem claim1_orientation (p : Polygon) (hp : p.IsClosed) :
    (twiceSignedArea p.exterior ≠ 0 →
      twiceSignedArea (normalized_polygon p).exterior < 0) ∧
    (∀ (i : Nat) (r r2 : LineString), p.interiors[i]? = some r →
      (normalized_polygon p).interiors[i]? = some r2 →
      twiceSignedArea r ≠ 0 → 0 < twiceSignedArea r2) := by
  rw [normalized_polygon_of_closed p hp]
  constructor
  · intro hne
    exact twiceSignedArea_points_cw_neg p.exterior hne
  · intro i r r2 hr hr2 hne
    simp only [List.getElem?_map, hr, Option.map_some] at hr2
    cases hr2
    exact twiceSignedArea_points_ccw_pos r hne

/-- Witness for the amended claim C1 at a concrete polygon: a
counter-clockwise square exterior with one clockwise square hole. -/
theorem claim1_orientation_witness :
    (twiceSignedArea
        (⟨[⟨1, 1⟩, ⟨4, 1⟩, ⟨4, 4⟩, ⟨1, 4⟩, ⟨1, 1⟩],
          [[⟨2, 2⟩, ⟨2, 3⟩, ⟨3, 3⟩, ⟨3, 2⟩, ⟨2, 2⟩]]⟩ : Polygon).exterior ≠ 0 →
      twiceSignedArea
        (normalized_polygon
          ⟨[⟨1, 1⟩, ⟨4, 1⟩, ⟨4, 4⟩, ⟨1, 4⟩, ⟨1, 1⟩],
           [[⟨2, 2⟩, ⟨2, 3⟩, ⟨3, 3⟩, ⟨3, 2⟩, ⟨2, 2⟩]]⟩).exterior < 0) ∧
    (∀ (i : Nat) (r r2 : LineString),
      (⟨[⟨1, 1⟩, ⟨4, 1⟩, ⟨4, 4⟩, ⟨1, 4⟩, ⟨1, 1⟩],
        [[⟨2, 2⟩, ⟨2, 3⟩, ⟨3, 3⟩, ⟨3, 2⟩, ⟨2, 2⟩]]⟩ : Polygon).interiors[i]? =
          some r →
      (normalized_polygon
        ⟨[⟨1, 1⟩, ⟨4, 1⟩, ⟨4, 4⟩, ⟨1, 4⟩, ⟨1, 1⟩],
         [[⟨2, 2⟩, ⟨2, 3⟩, ⟨3, 3⟩, ⟨3, 2⟩, ⟨2, 2⟩]]⟩).interiors[i]? = some r2 →
      twiceSignedArea r ≠ 0 → 0 < twiceSignedArea r2) :=
  claim1_orientation _ (by decide)

/-- Claim C2: on every polygon obeying the closure invariant, each ring of
the result has the same coordinate multiset as the corresponding input
ring, stays closed, and differs from the input ring at most by a reversal
of traversal order; the list of interior rings keeps its length. -/
theorem claim2_shape_preservation (p : Polygon) (hp : p.IsClosed) :
    (((normalized_polygon p).exterior : Multiset Coordinate) =
        (p.exterior : Multiset Coordinate) ∧
      IsClosedRing (normalized_polygon p).exterior ∧
      ((normalized_polygon p).exterior = p.exterior ∨
        (normalized_polygon p).exterior = p.exterior.reverse)) ∧
    (normalized_polygon p).interiors.length = p.interiors.length ∧
    (∀ (i : Nat) (r r2 : LineString), p.interiors[i]? = some r →
      (normalized_polygon p).interiors[i]? = some r2 →
      ((r2 : Multiset Coordinate) = (r : Multiset Coordinate) ∧
        IsClosedRing r2 ∧ (r2 = r ∨ r2 = r.reverse))) := by
  rw [normalized_polygon_of_closed p hp]
  refine ⟨⟨?_, ?_, ?_⟩, ?_, ?_⟩
  · exact Multiset.coe_eq_coe.mpr (points_cw_perm p.exterior)
  · exact isClosedRing_points_cw _ hp.1
  · exact points_cw_cases p.exterior
  · exact List.length_map _ _
  · intro i r r2 hr hr2
    simp only [List.getElem?_map, hr, Option.map_some] at hr2
    cases hr2
    have hcl := hp.2 r (List.getElem?_mem hr)
    exact ⟨Multiset.coe_eq_coe.mpr (points_ccw_perm r),
      isClosedRing_points_ccw r hcl, points_ccw_cases r⟩

/-- Witness for claim C2 at a concrete polygon: a counter-clockwise square
exterior with one clockwise square hole. -/
theorem claim2_shape_preservation_witness :
    (((normalized_polygon
          ⟨[⟨0, 0⟩, ⟨5, 0⟩, ⟨5, 5⟩, ⟨0, 5⟩, ⟨0, 0⟩],
           [[⟨1, 1⟩, ⟨1, 2⟩, ⟨2, 2⟩, ⟨2, 1⟩, ⟨1, 1⟩]]⟩).exterior :
        Multiset Coordinate) =
        ((⟨[⟨0, 0⟩, ⟨5, 0⟩, ⟨5, 5⟩, ⟨0, 5⟩, ⟨0, 0⟩],
           [[⟨1, 1⟩, ⟨1, 2⟩, ⟨2, 2⟩, ⟨2, 1⟩, ⟨1, 1⟩]]⟩ : Polygon).exterior :
        Multiset Coordinate) ∧
      IsClosedRing (normalized_polygon
          ⟨[⟨0, 0⟩, ⟨5, 0⟩, ⟨5, 5⟩, ⟨0, 5⟩, ⟨0, 0⟩],
           [[⟨1, 1⟩, ⟨1, 2⟩, ⟨2, 2⟩, ⟨2, 1⟩, ⟨1, 1⟩]]⟩).exterior ∧
      ((normalized_polygon
          ⟨[⟨0, 0⟩, ⟨5, 0⟩, ⟨5, 5⟩, ⟨0, 5⟩, ⟨0, 0⟩],
           [[⟨1, 1⟩, ⟨1, 2⟩, ⟨2, 2⟩, ⟨2, 1⟩, ⟨1, 1⟩]]⟩).exterior =
        (⟨[⟨0, 0⟩, ⟨5, 0⟩, ⟨5, 5⟩, ⟨0, 5⟩, ⟨0, 0⟩],
          [[⟨1, 1⟩, ⟨1, 2⟩, ⟨2, 2⟩, ⟨2, 1⟩, ⟨1, 1⟩]]⟩ : Polygon).exterior ∨
        (normalized_polygon
          ⟨[⟨0, 0⟩, ⟨5, 0⟩, ⟨5, 5⟩, ⟨0, 5⟩, ⟨0, 0⟩],
           [[⟨1, 1⟩, ⟨1, 2⟩, ⟨2, 2⟩, ⟨2, 1⟩, ⟨1, 1⟩]]⟩).exterior =
        (⟨[⟨0, 0⟩, ⟨5, 0⟩, ⟨5, 5⟩, ⟨0, 5⟩, ⟨0, 0⟩],
          [[⟨1, 1⟩, ⟨1, 2⟩, ⟨2, 2⟩, ⟨2, 1⟩, ⟨1, 1⟩]]⟩ :
          Polygon).exterior.reverse)) ∧
    (normalized_polygon
        ⟨[⟨0, 0⟩, ⟨5, 0⟩, ⟨5, 5⟩, ⟨0, 5⟩, ⟨0, 0⟩],
         [[⟨1, 1⟩, ⟨1, 2⟩, ⟨2, 2⟩, ⟨2, 1⟩, ⟨1, 1⟩]]⟩).interiors.length =
      (⟨[⟨0, 0⟩, ⟨5, 0⟩, ⟨5, 5⟩, ⟨0, 5⟩, ⟨0, 0⟩],
        [[⟨1, 1⟩, ⟨1, 2⟩, ⟨2, 2⟩, ⟨2, 1⟩, ⟨1, 1⟩]]⟩ :
        Polygon).interiors.length ∧
    (∀ (i : Nat) (r r2 : LineString),
      (⟨[⟨0, 0⟩, ⟨5, 0⟩, ⟨5, 5⟩, ⟨0, 5⟩, ⟨0, 0⟩],
        [[⟨1, 1⟩, ⟨1, 2⟩, ⟨2, 2⟩, ⟨2, 1⟩, ⟨1, 1⟩]]⟩ :
        Polygon).interiors[i]? = some r →
      (normalized_polygon
        ⟨[⟨0, 0⟩, ⟨5, 0⟩, ⟨5, 5⟩, ⟨0, 5⟩, ⟨0, 0⟩],
         [[⟨1, 1⟩, ⟨1, 2⟩, ⟨2, 2⟩, ⟨2, 1⟩, ⟨1, 1⟩]]⟩).interiors[i]? = some r2 →
      ((r2 : Multiset Coordinate) = (r : Multiset Coordinate) ∧
        IsClosedRing r2 ∧ (r2 = r ∨ r2 = r.reverse))) :=
  claim2_shape_preservation _ (by decide)

/-- Claim C3: polygon normalization is idempotent on every polygon obeying
the closure invariant of the data model. -/
theorem claim3_idempotent (p : Polygon) (hp : p.IsClosed) :
    normalized_polygon (normalized_polygon p) = normalized_polygon p := by
  have h1 := normalized_polygon_isClosed p hp
  rw [normalized_polygon_of_closed _ h1, normalized_polygon_of_closed p hp]
  simp only [points_cw_idem, List.map_map]
  congr 1
  apply List.map_congr_left
  intro r _
  exact points_ccw_idem r

/-- Witness for claim C3 at a concrete polygon: a counter-clockwise
triangle exterior with one clockwise triangular hole. -/
theorem claim3_idempotent_witness :
    normalized_polygon
        (normalized_polygon
          ⟨[⟨0, 0⟩, ⟨9, 0⟩, ⟨0, 9⟩, ⟨0, 0⟩],
           [[⟨1, 1⟩, ⟨1, 3⟩, ⟨3, 1⟩, ⟨1, 1⟩]]⟩) =
      normalized_polygon
        ⟨[⟨0, 0⟩, ⟨9, 0⟩, ⟨0, 9⟩, ⟨0, 0⟩],
         [[⟨1, 1⟩, ⟨1, 3⟩, ⟨3, 1⟩, ⟨1, 1⟩]]⟩ :=
  claim3_idempotent _ (by decide)

/-- Claim C4: a polygon whose exterior ring is already clockwise (negative
shoelace sum) and whose interior rings are all already counter-clockwise
(positive sum), and which obeys the closure invariant, is returned exactly
value-equal by normalization. -/
theorem claim4_noop (p : Polygon) (hp : p.IsClosed)
    (hext : twiceSignedArea p.exterior < 0)
    (hint : ∀ r ∈ p.interiors, 0 < twiceSignedArea r) :
    normalized_polygon p = p := by
  rw [normalized_polygon_of_closed p hp,
    points_cw_eq_self p.exterior (le_of_lt hext)]
  have hi : p.interiors.map points_ccw = p.interiors := by
    have : p.interiors.map points_ccw = p.interiors.map id := by
      apply List.map_congr_left
      intro r hr
      exact points_ccw_eq_self r (le_of_lt (hint r hr))
    rw [this, List.map_id]
  rw [hi]

/-- Witness for claim C4 at a concrete already-valid polygon: a clockwise
square exterior with a counter-clockwise square hole. -/
theorem claim4_noop_witness :
    normalized_polygon
        ⟨[⟨0, 0⟩, ⟨0, 50⟩, ⟨50, 50⟩, ⟨50, 0⟩, ⟨0, 0⟩],
         [[⟨10, 10⟩, ⟨20, 10⟩, ⟨20, 20⟩, ⟨10, 20⟩, ⟨10, 10⟩]]⟩ =
      ⟨[⟨0, 0⟩, ⟨0, 50⟩, ⟨50, 50⟩, ⟨50, 0⟩, ⟨0, 0⟩],
       [[⟨10, 10⟩, ⟨20, 10⟩, ⟨20, 20⟩, ⟨10, 20⟩, ⟨10, 10⟩]]⟩ :=
  claim4_noop _ (by decide) (by decide) (by decide)

/-- Claim C5: multi-polygon normalization is exactly the order-preserving
map of polygon normalization — the result is the element-wise image, has
the same length, and its i-th element is the polygon normalization of the
i-th input polygon. -/
theorem claim5_multipolygon_map (mp : MultiPolygon) :
    MultiPolygon.normalized mp = mp.map normalized_polygon ∧
    (MultiPolygon.normalized mp).length = mp.length ∧
    ∀ i : Nat, (MultiPolygon.normalized mp)[i]? =
      (mp[i]?).map normalized_polygon := by
  refine ⟨rfl, ?_, ?_⟩
  · exact List.length_map _ _
  · intro i
    exact List.getElem?_map _ _ _

/-- Claim C6: collection normalization succeeds and is exactly the
order-preserving element-wise map that normalizes polygon elements,
normalizes multi-polygon elements, and passes every other variant —
a nested collection included — through unchanged; the length is
preserved. -/
theorem claim6_collection_dispatch (gc : GeometryCollection) :
    GeometryCollection.normalized gc = some (gc.map normalizeElemSpec) ∧
    (gc.map normalizeElemSpec).length = gc.length ∧
    (∀ p : Polygon, normalizeElemSpec (Geometry.polygon p) =
      Geometry.polygon (normalized_polygon p)) ∧
    (∀ mp : MultiPolygon, normalizeElemSpec (Geometry.multiPolygon mp) =
      Geometry.multiPolygon (MultiPolygon.normalized mp)) ∧
    (∀ l : List Geometry, normalizeElemSpec (Geometry.geometryCollection l) =
      Geometry.geometryCollection l) ∧
    (∀ c : Coordinate, normalizeElemSpec (Geometry.point c) =
      Geometry.point c) ∧
    (∀ l : Line, normalizeElemSpec (Geometry.line l) = Geometry.line l) ∧
    (∀ ls : LineString, normalizeElemSpec (Geometry.lineString ls) =
      Geometry.lineString ls) ∧
    (∀ cs : List Coordinate, normalizeElemSpec (Geometry.multiPoint cs) =
      Geometry.multiPoint cs) ∧
    (∀ lss : List LineString,
      normalizeElemSpec (Geometry.multiLineString lss) =
        Geometry.multiLineString lss) ∧
    (∀ r : Rect, normalizeElemSpec (Geometry.rect r) = Geometry.rect r) ∧
    (∀ t : Triangle, normalizeElemSpec (Geometry.triangle t) =
      Geometry.triangle t) :=
  ⟨gc_normalized_eq gc, List.length_map _ _, fun _ => rfl, fun _ => rfl,
    fun _ => rfl, fun _ => rfl, fun _ => rfl, fun _ => rfl, fun _ => rfl,
    fun _ => rfl, fun _ => rfl, fun _ => rfl⟩

/-- Claim C7: the counter-clockwise square listing (1,1),(4,1),(4,4),
(1,4),(1,1) normalizes to the clockwise listing (1,1),(1,4),(4,4),(4,1),
(1,1). -/
theorem claim7_scenario_square :
    normalized_polygon ⟨[⟨1, 1⟩, ⟨4, 1⟩, ⟨4, 4⟩, ⟨1, 4⟩, ⟨1, 1⟩], []⟩ =
      ⟨[⟨1, 1⟩, ⟨1, 4⟩, ⟨4, 4⟩, ⟨4, 1⟩, ⟨1, 1⟩], []⟩ := by decide

/-- Claim C8 is refuted as stated: a degenerate exterior ring (three
collinear vertices, zero shoelace sum) is not clockwise under the sign
test, so the claim would require it to be replaced by its reversal, yet
normalization keeps it unchanged, and it differs from its reversal. -/
theorem claim8_counterexample :
    ¬ twiceSignedArea ([⟨0, 0⟩, ⟨1, 0⟩, ⟨2, 0⟩, ⟨0, 0⟩] : LineString) < 0 ∧
    (normalized_polygon ⟨[⟨0, 0⟩, ⟨1, 0⟩, ⟨2, 0⟩, ⟨0, 0⟩], []⟩).exterior ≠
      ([⟨0, 0⟩, ⟨1, 0⟩, ⟨2, 0⟩, ⟨0, 0⟩] : LineString).reverse := by decide

/-- Claim C8 (amended): on every polygon obeying the closure invariant, a
ring is replaced by exactly its reversal precisely when it is strictly
mis-wound — the exterior when its shoelace sum is positive
(counter-clockwise), an interior when its sum is negative (clockwise) —
and is kept unchanged otherwise, zero-area rings included. -/
theorem claim8_flip_exact (p : Polygon) (hp : p.IsClosed) :
    ((0 < twiceSignedArea p.exterior →
        (normalized_polygon p).exterior = p.exterior.reverse) ∧
      (twiceSignedArea p.exterior ≤ 0 →
        (normalized_polygon p).exterior = p.exterior)) ∧
    (∀ (i : Nat) (r r2 : LineString), p.interiors[i]? = some r →
      (normalized_polygon p).interiors[i]? = some r2 →
      ((twiceSignedArea r < 0 → r2 = r.reverse) ∧
        (0 ≤ twiceSignedArea r → r2 = r))) := by
  rw [normalized_polygon_of_closed p hp]
  refine ⟨⟨?_, ?_⟩, ?_⟩
  · exact fun h => points_cw_eq_reverse p.exterior h
  · exact fun h => points_cw_eq_self p.exterior h
  · intro i r r2 hr hr2
    simp only [List.getElem?_map, hr, Option.map_some] at hr2
    cases hr2
    exact ⟨fun h => points_ccw_eq_reverse r h,
      fun h => points_ccw_eq_self r h⟩

/-- Witness for the amended claim C8 at a concrete polygon: a
counter-clockwise square exterior with a clockwise square hole. -/
theorem claim8_flip_exact_witness :
    ((0 < twiceSignedArea
        (⟨[⟨0, 0⟩, ⟨6, 0⟩, ⟨6, 6⟩, ⟨0, 6⟩, ⟨0, 0⟩],
          [[⟨2, 2⟩, ⟨2, 4⟩, ⟨4, 4⟩, ⟨4, 2⟩, ⟨2, 2⟩]]⟩ : Polygon).exterior →
        (normalized_polygon
          ⟨[⟨0, 0⟩, ⟨6, 0⟩, ⟨6, 6⟩, ⟨0, 6⟩, ⟨0, 0⟩],
           [[⟨2, 2⟩, ⟨2, 4⟩, ⟨4, 4⟩, ⟨4, 2⟩, ⟨2, 2⟩]]⟩).exterior =
          (⟨[⟨0, 0⟩, ⟨6, 0⟩, ⟨6, 6⟩, ⟨0, 6⟩, ⟨0, 0⟩],
            [[⟨2, 2⟩, ⟨2, 4⟩, ⟨4, 4⟩, ⟨4, 2⟩, ⟨2, 2⟩]]⟩ :
            Polygon).exterior.reverse) ∧
      (twiceSignedArea
        (⟨[⟨0, 0⟩, ⟨6, 0⟩, ⟨6, 6⟩, ⟨0, 6⟩, ⟨0, 0⟩],
          [[⟨2, 2⟩, ⟨2, 4⟩, ⟨4, 4⟩, ⟨4, 2⟩, ⟨2, 2⟩]]⟩ : Polygon).exterior ≤ 0 →
        (normalized_polygon
          ⟨[⟨0, 0⟩, ⟨6, 0⟩, ⟨6, 6⟩, ⟨0, 6⟩, ⟨0, 0⟩],
           [[⟨2, 2⟩, ⟨2, 4⟩, ⟨4, 4⟩, ⟨4, 2⟩, ⟨2, 2⟩]]⟩).exterior =
          (⟨[⟨0, 0⟩, ⟨6, 0⟩, ⟨6, 6⟩, ⟨0, 6⟩, ⟨0, 0⟩],
            [[⟨2, 2⟩, ⟨2, 4⟩, ⟨4, 4⟩, ⟨4, 2⟩, ⟨2, 2⟩]]⟩ :
            Polygon).exterior)) ∧
    (∀ (i : Nat) (r r2 : LineString),
      (⟨[⟨0, 0⟩, ⟨6, 0⟩, ⟨6, 6⟩, ⟨0, 6⟩, ⟨0, 0⟩],
        [[⟨2, 2⟩, ⟨2, 4⟩, ⟨4, 4⟩, ⟨4, 2⟩, ⟨2, 2⟩]]⟩ :
        Polygon).interiors[i]? = some r →
      (normalized_polygon
        ⟨[⟨0, 0⟩, ⟨6, 0⟩, ⟨6, 6⟩, ⟨0, 6⟩, ⟨0, 0⟩],
         [[⟨2, 2⟩, ⟨2, 4⟩, ⟨4, 4⟩, ⟨4, 2⟩, ⟨2, 2⟩]]⟩).interiors[i]? =
        some r2 →
      ((twiceSignedArea r < 0 → r2 = r.reverse) ∧
        (0 ≤ twiceSignedArea r → r2 = r))) :=
  claim8_flip_exact _ (by decide)

/-- Claim C9: on every geometry collection the per-element extraction
steps all succeed (the modelled unwraps never panic), so collection
normalization is total. -/
theorem claim9_no_panic (gc : GeometryCollection) :
    (∀ g : Geometry, (Geometry.normalizedStep g).isSome = true) ∧
    (GeometryCollection.normalized gc).isSome = true := by
  constructor
  · intro g
    rw [normalizedStep_eq g]
    rfl
  · rw [gc_normalized_eq gc]
    rfl

/-- Claim C10: on every polygon obeying the closure invariant, a
degenerate ring (zero shoelace sum, hence undetermined winding) is left
unchanged by normalization, for the exterior ring and interior rings
alike. -/
theorem claim10_degenerate (p : Polygon) (hp : p.IsClosed) :
    (twiceSignedArea p.exterior = 0 →
      (normalized_polygon p).exterior = p.exterior) ∧
    (∀ (i : Nat) (r : LineString), p.interiors[i]? = some r →
      twiceSignedArea r = 0 →
      (normalized_polygon p).interiors[i]? = some r) := by
  rw [normalized_polygon_of_closed p hp]
  constructor
  · intro h0
    exact points_cw_eq_self p.exterior (by omega)
  · intro i r hr h0
    have hccw : points_ccw r = r := points_ccw_eq_self r (by omega)
    simp [List.getElem?_map, hr, hccw]

/-- Witness for claim C10 at a concrete degenerate polygon: a collinear
exterior ring and a back-and-forth interior ring, both of zero area. -/
theorem claim10_degenerate_witness :
    (twiceSignedArea
        (⟨[⟨0, 0⟩, ⟨2, 2⟩, ⟨5, 5⟩, ⟨0, 0⟩],
          [[⟨1, 1⟩, ⟨3, 4⟩, ⟨1, 1⟩]]⟩ : Polygon).exterior = 0 →
      (normalized_polygon
        ⟨[⟨0, 0⟩, ⟨2, 2⟩, ⟨5, 5⟩, ⟨0, 0⟩],
         [[⟨1, 1⟩, ⟨3, 4⟩, ⟨1, 1⟩]]⟩).exterior =
        (⟨[⟨0, 0⟩, ⟨2, 2⟩, ⟨5, 5⟩, ⟨0, 0⟩],
          [[⟨1, 1⟩, ⟨3, 4⟩, ⟨1, 1⟩]]⟩ : Polygon).exterior) ∧
    (∀ (i : Nat) (r : LineString),
      (⟨[⟨0, 0⟩, ⟨2, 2⟩, ⟨5, 5⟩, ⟨0, 0⟩],
        [[⟨1, 1⟩, ⟨3, 4⟩, ⟨1, 1⟩]]⟩ : Polygon).interiors[i]? = some r →
      twiceSignedArea r = 0 →
      (normalized_polygon
        ⟨[⟨0, 0⟩, ⟨2, 2⟩, ⟨5, 5⟩, ⟨0, 0⟩],
         [[⟨1, 1⟩, ⟨3, 4⟩, ⟨1, 1⟩]]⟩).interiors[i]? = some r) :=
  claim10_degenerate _ (by decide)

end GeoNorm
